import Mathlib

set_option maxRecDepth 4000

/-!
Shallow embedding of the WerchterNews monitor: monitor.py, src/models.py,
src/utils/date_parser.py, src/services/news_services.py,
src/services/storage_services.py, src/services/telegram_services.py.

Modelling conventions:
* Python strings are Lean `String`; per-character work uses `List Char`.
* `datetime` values are modelled at day granularity as integers (`Int`): the
  claims under study depend only on parse success, equality, order and
  day differences of timestamps.
* ISO-8601 strings produced by `datetime.isoformat` are modelled by the
  `IsoTimestamp` type: `valid t` denotes a well-formed string for time `t`
  (so `datetime.fromisoformat` succeeds and yields `t`), `malformed s` a
  string it rejects with `ValueError`.
* Exceptions are modelled with `Option`/`Except` exactly at the points where
  the Python code can raise; code that catches them is translated to the
  corresponding total function.
-/

namespace Werchter

/-! ### ASCII character helpers (Python `str.lower`, `str.strip`, `str.title`) -/

/-- Python `str.lower` restricted to ASCII, which is all the source feeds it. -/
def toLowerChar (c : Char) : Char :=
  if 'A' ≤ c ∧ c ≤ 'Z' then Char.ofNat (c.toNat + 32) else c

/-- ASCII uppercasing, used by `str.title`. -/
def toUpperChar (c : Char) : Char :=
  if 'a' ≤ c ∧ c ≤ 'z' then Char.ofNat (c.toNat - 32) else c

def isAsciiAlpha (c : Char) : Bool :=
  decide (('a' ≤ c ∧ c ≤ 'z') ∨ ('A' ≤ c ∧ c ≤ 'Z'))

def isSpaceChar (c : Char) : Bool :=
  decide (c = ' ' ∨ c = '\t' ∨ c = '\n' ∨ c = '\r' ∨ c = '\x0b' ∨ c = '\x0c')

/-- Python `str.strip` (whitespace from both ends). -/
def stripChars (s : List Char) : List Char :=
  ((s.dropWhile isSpaceChar).reverse.dropWhile isSpaceChar).reverse

/-- Worker for `replaceAll`; the fuel is the length of the scanned string,
which suffices because each step consumes at least one character when the
pattern is nonempty (the only way it is called). -/
def replaceAllFuel (pat rep : List Char) : Nat → List Char → List Char
  | 0, s => s
  | _ + 1, [] => []
  | fuel + 1, c :: rest =>
    if pat.isPrefixOf (c :: rest) then
      rep ++ replaceAllFuel pat rep fuel ((c :: rest).drop pat.length)
    else
      c :: replaceAllFuel pat rep fuel rest

/-- Python `str.replace pat rep`: all leftmost non-overlapping occurrences. -/
def replaceAll (pat rep s : List Char) : List Char :=
  if pat = [] then s else replaceAllFuel pat rep s.length s

/-- Worker for `titleCase`: the flag records whether the previous character
was alphabetic (cased). -/
def titleCaseGo : Bool → List Char → List Char
  | _, [] => []
  | prevAlpha, c :: rest =>
    if isAsciiAlpha c then
      (if prevAlpha then toLowerChar c else toUpperChar c) :: titleCaseGo true rest
    else
      c :: titleCaseGo false rest

/-- Python `str.title`: first cased character of each run uppercased, the
rest lowercased. -/
def titleCase (s : List Char) : List Char := titleCaseGo false s

/-! ### DateParser (src/utils/date_parser.py) -/

/-- Table `DateParser.MONTH_REPLACEMENTS`, in dictionary (insertion) order. -/
def MONTH_REPLACEMENTS : List (List Char × List Char) :=
  [("januari".data, "january".data), ("februari".data, "february".data),
   ("maart".data, "march".data), ("mei".data, "may".data),
   ("juni".data, "june".data), ("juli".data, "july".data),
   ("augustus".data, "august".data), ("oktober".data, "october".data),
   ("december".data, "december".data)]

/-- Function `DateParser._normalize_date_string`: lowercase and strip, replace the
Dutch month names of the fixed dictionary in order, then title-case. -/
def normalize_date_string (s : List Char) : List Char :=
  titleCase (MONTH_REPLACEMENTS.foldl (fun acc p => replaceAll p.1 p.2 acc)
    (stripChars (s.map toLowerChar)))

def digitVal (c : Char) : Nat := c.toNat - 48

def isDigitChar (c : Char) : Bool := decide ('0' ≤ c ∧ c ≤ '9')

/-- Field `%d` of `strptime`: the regex alternation `3[01]|[12]\d|0[1-9]|[1-9]`,
alternatives listed in the regex priority order, each with its remainder. -/
def pDay (s : List Char) : List (Nat × List Char) :=
  (match s with
   | '3' :: c :: rest => if c = '0' ∨ c = '1' then [(30 + digitVal c, rest)] else []
   | _ => []) ++
  (match s with
   | a :: c :: rest =>
     if (a = '1' ∨ a = '2') ∧ isDigitChar c then [(10 * digitVal a + digitVal c, rest)] else []
   | _ => []) ++
  (match s with
   | '0' :: c :: rest => if '1' ≤ c ∧ c ≤ '9' then [(digitVal c, rest)] else []
   | _ => []) ++
  (match s with
   | c :: rest => if '1' ≤ c ∧ c ≤ '9' then [(digitVal c, rest)] else []
   | [] => [])

/-- Field `%m` of `strptime`: the regex alternation `1[0-2]|0[1-9]|[1-9]`. -/
def pMonth2 (s : List Char) : List (Nat × List Char) :=
  (match s with
   | '1' :: c :: rest => if c = '0' ∨ c = '1' ∨ c = '2' then [(10 + digitVal c, rest)] else []
   | _ => []) ++
  (match s with
   | '0' :: c :: rest => if '1' ≤ c ∧ c ≤ '9' then [(digitVal c, rest)] else []
   | _ => []) ++
  (match s with
   | c :: rest => if '1' ≤ c ∧ c ≤ '9' then [(digitVal c, rest)] else []
   | [] => [])

/-- Field `%Y` of `strptime`: exactly four digits. -/
def pYear4 (s : List Char) : List (Nat × List Char) :=
  match s with
  | a :: b :: c :: d :: rest =>
    if isDigitChar a ∧ isDigitChar b ∧ isDigitChar c ∧ isDigitChar d then
      [(1000 * digitVal a + 100 * digitVal b + 10 * digitVal c + digitVal d, rest)]
    else []
  | _ => []

/-- A literal separator character in a `strptime` format. -/
def pLit (ch : Char) (s : List Char) : List (List Char) :=
  match s with
  | c :: rest => if c = ch then [rest] else []
  | [] => []

/-- A space in a `strptime` format matches `\s+`; remainders are listed
greedily (longest consumed run first), mirroring regex backtracking order. -/
def pSpaces (s : List Char) : List (List Char) :=
  (List.range (s.takeWhile isSpaceChar).length).map
    (fun i => s.drop ((s.takeWhile isSpaceChar).length - i))

/-- The full English month names `%B` can match, longest first exactly as
Python's `_strptime.TimeRE` orders its alternation; matching is
case-insensitive. -/
def monthNamesByLength : List (List Char × Nat) :=
  [("september".data, 9),
   ("february".data, 2), ("november".data, 11), ("december".data, 12),
   ("january".data, 1), ("october".data, 10),
   ("august".data, 8),
   ("march".data, 3), ("april".data, 4),
   ("june".data, 6), ("july".data, 7),
   ("may".data, 5)]

/-- Field `%B` of `strptime`: case-insensitive full month name. -/
def pMonthName (s : List Char) : List (Nat × List Char) :=
  monthNamesByLength.filterMap (fun p =>
    if (s.take p.1.length).map toLowerChar = p.1 then some (p.2, s.drop p.1.length) else none)

/-- Format `"%d %B %Y"`: all regex matches as (year, month, day) with their
unconsumed remainder, in backtracking priority order. -/
def fmt_dBY (s : List Char) : List ((Nat × Nat × Nat) × List Char) :=
  (pDay s).flatMap fun d =>
    (pSpaces d.2).flatMap fun s2 =>
      (pMonthName s2).flatMap fun m =>
        (pSpaces m.2).flatMap fun s4 =>
          (pYear4 s4).map fun y => ((y.1, m.1, d.1), y.2)

/-- Format `"%B %d %Y"`. -/
def fmt_BdY (s : List Char) : List ((Nat × Nat × Nat) × List Char) :=
  (pMonthName s).flatMap fun m =>
    (pSpaces m.2).flatMap fun s2 =>
      (pDay s2).flatMap fun d =>
        (pSpaces d.2).flatMap fun s4 =>
          (pYear4 s4).map fun y => ((y.1, m.1, d.1), y.2)

/-- Format `"%Y-%m-%d"`. -/
def fmt_Ymd (s : List Char) : List ((Nat × Nat × Nat) × List Char) :=
  (pYear4 s).flatMap fun y =>
    (pLit '-' y.2).flatMap fun s2 =>
      (pMonth2 s2).flatMap fun m =>
        (pLit '-' m.2).flatMap fun s4 =>
          (pDay s4).map fun d => ((y.1, m.1, d.1), d.2)

/-- Format `"%d-%m-%Y"`. -/
def fmt_dmY (s : List Char) : List ((Nat × Nat × Nat) × List Char) :=
  (pDay s).flatMap fun d =>
    (pLit '-' d.2).flatMap fun s2 =>
      (pMonth2 s2).flatMap fun m =>
        (pLit '-' m.2).flatMap fun s4 =>
          (pYear4 s4).map fun y => ((y.1, m.1, d.1), y.2)

/-- Format `"%d/%m/%Y"`. -/
def fmt_dSlashmY (s : List Char) : List ((Nat × Nat × Nat) × List Char) :=
  (pDay s).flatMap fun d =>
    (pLit '/' d.2).flatMap fun s2 =>
      (pMonth2 s2).flatMap fun m =>
        (pLit '/' m.2).flatMap fun s4 =>
          (pYear4 s4).map fun y => ((y.1, m.1, d.1), y.2)

/-- The five members of `DateParser.DATE_FORMATS`. -/
inductive DateFormat
  | dBY
  | BdY
  | Ymd
  | dmY
  | dSlashmY
deriving DecidableEq, Repr

/-- List `DateParser.DATE_FORMATS`, in priority order. -/
def DATE_FORMATS : List DateFormat :=
  [DateFormat.dBY, DateFormat.BdY, DateFormat.Ymd, DateFormat.dmY, DateFormat.dSlashmY]

def runFormat : DateFormat → List Char → List ((Nat × Nat × Nat) × List Char)
  | DateFormat.dBY, s => fmt_dBY s
  | DateFormat.BdY, s => fmt_BdY s
  | DateFormat.Ymd, s => fmt_Ymd s
  | DateFormat.dmY, s => fmt_dmY s
  | DateFormat.dSlashmY, s => fmt_dSlashmY s

/-- A calendar date, the payload of a successfully parsed `datetime`. -/
structure Date where
  year : Nat
  month : Nat
  day : Nat
deriving DecidableEq, Repr

def isLeapYear (y : Nat) : Bool := decide (y % 4 = 0 ∧ (y % 100 ≠ 0 ∨ y % 400 = 0))

def daysInMonth (y m : Nat) : Nat :=
  if m = 2 then (if isLeapYear y then 29 else 28)
  else if m = 4 ∨ m = 6 ∨ m = 9 ∨ m = 11 then 30
  else 31

/-- The validation `datetime.__init__` performs on strptime output. -/
def validDate (y m d : Nat) : Bool :=
  decide (1 ≤ y ∧ y ≤ 9999 ∧ 1 ≤ m ∧ m ≤ 12 ∧ 1 ≤ d ∧ d ≤ daysInMonth y m)

/-- Embedding of `datetime.strptime(s, fmt)` as used by the parser loop: the regex engine
returns its backtracking-first match (the head); strptime then raises
`ValueError` — here `none` — when the match does not cover the whole string
or the matched fields are not a valid calendar date. -/
def strptime_fmt (fmt : DateFormat) (s : List Char) : Option Date :=
  match runFormat fmt s with
  | [] => none
  | (ymd, rest) :: _ =>
    if rest = [] ∧ validDate ymd.1 ymd.2.1 ymd.2.2 then some ⟨ymd.1, ymd.2.1, ymd.2.2⟩ else none

/-- Function `DateParser.parse_date` (src/utils/date_parser.py lines 34-59): empty
input is absent; otherwise normalize once and try each format in order,
returning the first success, else `none` (the `ValueError` of every failed
format is caught by the loop). -/
def parse_date (date_str : String) : Option Date :=
  if date_str = "" then none
  else
    let clean_date := normalize_date_string date_str.data
    DATE_FORMATS.findSome? (fun f => strptime_fmt f clean_date)

/-- The Date Normalizer as worded by the spec, for the refinement theorem of
claim C8: (1) empty input returns absent; (2) normalize casing, translate the
fixed month dictionary, then title-case; (3) attempt the prioritized format
list in its fixed order returning the first exact match; (4) otherwise
absent. -/
def tryFormatsInOrder : List DateFormat → List Char → Option Date
  | [], _ => none
  | f :: fs, s =>
    match strptime_fmt f s with
    | some d => some d
    | none => tryFormatsInOrder fs s

/-- Spec-worded counterpart of `parse_date` (see `tryFormatsInOrder`). -/
def parse_date_spec (date_str : String) : Option Date :=
  if date_str = "" then none
  else
    tryFormatsInOrder DATE_FORMATS
      (titleCase (MONTH_REPLACEMENTS.foldl (fun acc p => replaceAll p.1 p.2 acc)
        (stripChars (date_str.data.map toLowerChar))))

/-! ### NewsItem (src/models.py) -/

/-- Model `NewsItem`: the raw fields. The `_parsed_date` field set by
`__post_init__` is purely derived from `date`, see `parsedDate`. -/
structure NewsItem where
  title : String
  date : String
  link : String
  image_url : Option String
deriving DecidableEq, Repr

/-- The `_parsed_date` field computed by `NewsItem.__post_init__`. -/
def parsedDate (n : NewsItem) : Option Date := parse_date n.date

/-- English month name as `strftime` `%B` renders it in the C locale. -/
def monthNameEnglish : Nat → String
  | 1 => "January"
  | 2 => "February"
  | 3 => "March"
  | 4 => "April"
  | 5 => "May"
  | 6 => "June"
  | 7 => "July"
  | 8 => "August"
  | 9 => "September"
  | 10 => "October"
  | 11 => "November"
  | 12 => "December"
  | _ => ""

def pad2 (n : Nat) : String := if n < 10 then "0" ++ toString n else toString n

def pad4 (n : Nat) : String :=
  if n < 10 then "000" ++ toString n
  else if n < 100 then "00" ++ toString n
  else if n < 1000 then "0" ++ toString n
  else toString n

/-- Function `DateParser.format_date` with its default format `"%d %B %Y"`. -/
def format_date : Option Date → String
  | none => "Fecha no disponible"
  | some d => pad2 d.day ++ " " ++ monthNameEnglish d.month ++ " " ++ pad4 d.year

/-- Property `NewsItem.formatted_date`. -/
def formatted_date (n : NewsItem) : String := format_date (parsedDate n)

/-- Chronological order on dates (`datetime.__lt__`; times are all midnight). -/
def dateLt (a b : Date) : Bool :=
  decide (a.year < b.year ∨ (a.year = b.year ∧
    (a.month < b.month ∨ (a.month = b.month ∧ a.day < b.day))))

/-- Comparator `NewsItem.__lt__` (src/models.py lines 47-58): an item whose date did not
parse is never less than anything; an item with a date is less than any item
without one; otherwise compare parsed dates. -/
def newsItemLt (a b : NewsItem) : Bool :=
  match parsedDate a, parsedDate b with
  | none, _ => false
  | some _, none => true
  | some da, some db => dateLt da db

/-- Comparator `NewsItem.__eq__` (src/models.py lines 60-64): equality is on `link` only. -/
def newsItemEq (a b : NewsItem) : Bool := decide (a.link = b.link)

/-! ### NewsService (src/services/news_services.py) -/

/-- Stable insertion into a `newsItemLt`-sorted list (later equal elements
stay after earlier ones). -/
def insertSorted (x : NewsItem) : List NewsItem → List NewsItem
  | [] => [x]
  | y :: ys => if newsItemLt x y then x :: y :: ys else y :: insertSorted x ys

/-- Python `sorted` on news items: a stable sort by `__lt__`; since
`newsItemLt` is a strict weak order this insertion sort yields the same
list as any stable sort. -/
def sortNews (items : List NewsItem) : List NewsItem :=
  items.foldl (fun acc x => insertSorted x acc) []

/-- The outcome of the `aiohttp` request plus card parsing made inside
`NewsService.get_news`: either an HTTP response (status plus the items
the card parser produced from its body) or a raised exception. -/
inductive FetchOutcome
  | ok (status : Nat) (items : List NewsItem)
  | exn (msg : String)
deriving DecidableEq, Repr

/-- Function `NewsService.get_news` (lines 16-38): a non-200 status yields `[]`;
any exception is caught, logged and yields `[]`; otherwise the parsed items
are returned sorted by date. No failure ever escapes this function. -/
def get_news : FetchOutcome → List NewsItem
  | FetchOutcome.ok status items => if status ≠ 200 then [] else sortNews items
  | FetchOutcome.exn _ => []

/-! ### StorageService (src/services/storage_services.py) -/

/-- An ISO-8601 timestamp string: either well formed, denoting time `t`
(in days), or malformed, rejected by `datetime.fromisoformat`. -/
inductive IsoTimestamp
  | valid (t : Int)
  | malformed (raw : String)
deriving DecidableEq, Repr

/-- Embedding of `datetime.fromisoformat`: `none` models the raised `ValueError`. -/
def fromisoformat : IsoTimestamp → Option Int
  | IsoTimestamp.valid t => some t
  | IsoTimestamp.malformed _ => none

/-- The time denoted by a well-formed timestamp (0 for malformed ones;
only used to state specifications, never by the translated code). -/
def tsVal : IsoTimestamp → Int
  | IsoTimestamp.valid t => t
  | IsoTimestamp.malformed _ => 0

/-- The per-link dictionary value written by `mark_as_processed`. -/
structure StoredRecord where
  title : String
  date : String
  link : String
  image_url : Option String
  processed_at : IsoTimestamp
deriving DecidableEq, Repr

/-- State of `StorageService`: `_processed_news` is a Python dict, modelled as
an insertion-ordered association list with unique keys; `_processed_links`
is the redundant set index; `disk` is the JSON file contents and
`writeCount` counts calls to `_save_processed_news`. -/
structure StorageState where
  processed_news : List (String × StoredRecord)
  processed_links : List String
  disk : List (String × StoredRecord)
  writeCount : Nat
deriving DecidableEq, Repr

/-- Function `StorageService._save_processed_news` called with the current state. -/
def save_processed_news (st : StorageState) : StorageState :=
  { st with disk := st.processed_news, writeCount := st.writeCount + 1 }

/-- Function `StorageService.is_processed`: O(1) membership in `_processed_links`. -/
def is_processed (st : StorageState) (n : NewsItem) : Bool :=
  decide (n.link ∈ st.processed_links)

/-- Python `set.add` (idempotent). -/
def insertLink (l : String) (links : List String) : List String :=
  if l ∈ links then links else links ++ [l]

/-- Function `StorageService.mark_as_processed` (lines 68-85): no-op when already
processed; otherwise insert the record snapshot with `processed_at = now`,
add the link to the index and persist synchronously. -/
def mark_as_processed (now : Int) (st : StorageState) (n : NewsItem) : StorageState :=
  if is_processed st n then st
  else
    save_processed_news
      { st with
        processed_news :=
          st.processed_news ++ [(n.link, ⟨n.title, formatted_date n, n.link, n.image_url, IsoTimestamp.valid now⟩)],
        processed_links := insertLink n.link st.processed_links }

/-- Function `StorageService.get_unprocessed_news` (lines 87-100): keep input order,
drop processed items. -/
def get_unprocessed_news (st : StorageState) (items : List NewsItem) : List NewsItem :=
  items.filter (fun n => !(is_processed st n))

/-- The first loop of `cleanup_old_entries`: collect the links of entries
older than `max_age_days`, iterating the dict in order; a `ValueError`
from `fromisoformat` (modelled as `none`) aborts the whole computation
before anything is mutated. -/
def collectOld (now max_age_days : Int) : List (String × StoredRecord) → Option (List String)
  | [] => some []
  | p :: rest =>
    match fromisoformat p.2.processed_at with
    | none => none
    | some t =>
      match collectOld now max_age_days rest with
      | none => none
      | some acc => some (if now - t > max_age_days then p.1 :: acc else acc)

/-- The second loop of `cleanup_old_entries`: pop each collected link from
the dict and remove it from the set. A missing key raises `KeyError`
(flag `false`), leaving the partially mutated state to the caller. -/
def popLoop : List String → List (String × StoredRecord) → List String →
    List (String × StoredRecord) × List String × Bool
  | [], news, links => (news, links, true)
  | l :: rest, news, links =>
    if news.any (fun p => decide (p.1 = l)) then
      if l ∈ links then
        popLoop rest (news.filter (fun p => !(decide (p.1 = l)))) (links.filter (fun x => !(decide (x = l))))
      else (news.filter (fun p => !(decide (p.1 = l))), links, false)
    else (news, links, false)

/-- Function `StorageService.cleanup_old_entries` (lines 102-129): collect entries
older than `max_age_days`, remove them, and persist only when at least one
entry was removed; any exception is caught and logged, leaving whatever
state the loops reached (a parse failure happens before any mutation). -/
def cleanup_old_entries (st : StorageState) (now : Int) (max_age_days : Int) : StorageState :=
  match collectOld now max_age_days st.processed_news with
  | none => st
  | some entries_to_remove =>
    match popLoop entries_to_remove st.processed_news st.processed_links with
    | (news', links', completed) =>
      let st' := { st with processed_news := news', processed_links := links' }
      if completed then
        (if entries_to_remove ≠ [] then save_processed_news st' else st')
      else st'

/-- The datastructure invariant of `StorageService`: the set index holds
exactly the dict keys (the dict determinizes the set's order), and dict
keys are unique. Holds for every state the service can construct. -/
def WF (st : StorageState) : Prop :=
  st.processed_links = st.processed_news.map Prod.fst ∧
  (st.processed_news.map Prod.fst).Nodup

/-! ### TelegramService (src/services/telegram_services.py) -/

/-- Function `TelegramService.send_notification` (lines 83-121), with `outcome i`
telling whether the i-th underlying delivery attempt (the whole
`async with get_bot` block) succeeds or raises. Returns the Python return
value (`none` models falling off the loop, which happens only when
`max_retries = 0`), the number of attempts made, and the list of waits
actually slept between attempts. The structural recursion is on the number
of remaining loop iterations, `max_retries - attempt` at entry. -/
def send_loop (outcome : Nat → Bool) (max_retries : Nat) : Nat → Nat → Option Bool × Nat × List Nat
  | _, 0 => (none, 0, [])
  | attempt, remaining + 1 =>
    if outcome attempt then (some true, 1, [])
    else
      if attempt = max_retries - 1 then (some false, 1, [])
      else
        ((send_loop outcome max_retries (attempt + 1) remaining).1,
         (send_loop outcome max_retries (attempt + 1) remaining).2.1 + 1,
         min (2 ^ attempt * 5) 60 :: (send_loop outcome max_retries (attempt + 1) remaining).2.2)

/-- Function `send_notification`: run the retry loop from attempt 0. -/
def send_notification (outcome : Nat → Bool) (max_retries : Nat) : Option Bool × Nat × List Nat :=
  send_loop outcome max_retries 0 max_retries

/-! ### WerchterMonitor (monitor.py) -/

/-- What one call to `telegram_service.send_notification` does to the
monitor loop: a boolean result, or an unexpected exception (caught by the
per-item `try`). -/
inductive DeliveryOutcome
  | success
  | failure
  | raised
deriving DecidableEq, Repr

/-- The per-item loop of `_process_news_batch` (lines 175-191): deliver each
item; on success mark it processed; on failure or any exception log and
continue with the next item. -/
def deliverLoop (send : NewsItem → DeliveryOutcome) (now : Int) :
    StorageState → List NewsItem → StorageState
  | st, [] => st
  | st, item :: rest =>
    match send item with
    | DeliveryOutcome.success => deliverLoop send now (mark_as_processed now st item) rest
    | DeliveryOutcome.failure => deliverLoop send now st rest
    | DeliveryOutcome.raised => deliverLoop send now st rest

/-- Function `WerchterMonitor._process_news_batch` (lines 155-194). Returns the new
storage state, the list of items for which a delivery attempt was made, and
whether `cleanup_old_entries` was invoked. An empty batch and a batch with
no unprocessed item both return early, before the cleanup call. -/
def process_news_batch (send : NewsItem → DeliveryOutcome) (now : Int)
    (st : StorageState) (news_items : List NewsItem) : StorageState × List NewsItem × Bool :=
  if news_items = [] then (st, [], false)
  else
    if get_unprocessed_news st news_items = [] then (st, [], false)
    else
      (cleanup_old_entries (deliverLoop send now st (get_unprocessed_news st news_items)) now 30,
       get_unprocessed_news st news_items, true)

/-- Function `WerchterMonitor._check_for_updates` (lines 140-153): fetch, then process
the batch. -/
def check_for_updates (send : NewsItem → DeliveryOutcome) (now : Int)
    (st : StorageState) (fetch : FetchOutcome) : StorageState × List NewsItem × Bool :=
  process_news_batch send now st (get_news fetch)

/-- The result of `_check_for_updates` as `run` sees it. The body is total
in this embedding — every exception the fetch path can raise is caught
inside `get_news` (which returns `[]`), and `_process_news_batch` handles
per-item and storage errors internally — so the cycle always returns
normally; the `except` branch of `run` models errors from outside these
components. -/
def cycle_result (send : NewsItem → DeliveryOutcome) (now : Int)
    (st : StorageState) (fetch : FetchOutcome) : Except String StorageState :=
  Except.ok (check_for_updates send now st fetch).1

/-- The tail of one iteration of `WerchterMonitor.run` (lines 85-114): on a
normal cycle reset `consecutive_errors` and sleep `check_interval`; on an
exception increment it and sleep `min(2^count * 30, 3600)`. Returns the new
error count and the sleep length in seconds. -/
def run_iteration (check_interval : Nat) (consecutive_errors : Nat) :
    Except String Unit → Nat × Nat
  | Except.ok _ => (0, check_interval)
  | Except.error _ =>
    (consecutive_errors + 1, min (2 ^ (consecutive_errors + 1) * 30) 3600)

/-- One whole iteration of `WerchterMonitor.run`: run the cycle body, then
the error bookkeeping of `run_iteration`. Returns the storage state, the
new consecutive error count, and the sleep applied before the next cycle. -/
def run_one_cycle (check_interval : Nat) (send : NewsItem → DeliveryOutcome) (now : Int)
    (st : StorageState) (consecutive_errors : Nat) (fetch : FetchOutcome) :
    StorageState × Nat × Nat :=
  match cycle_result send now st fetch with
  | Except.ok st' => (st', run_iteration check_interval consecutive_errors (Except.ok ()))
  | Except.error e => (st, run_iteration check_interval consecutive_errors (Except.error e))

/-- The scheduler state after `n` consecutive failing cycles starting from a
fresh loop (count 0): error count and the sleep just applied. -/
def failuresState (check_interval : Nat) (msg : String) : Nat → Nat × Nat
  | 0 => (0, check_interval)
  | n + 1 => run_iteration check_interval (failuresState check_interval msg n).1 (Except.error msg)

/-! ### Concrete fixtures used by witnesses and counterexamples -/

def emptyStore : StorageState := ⟨[], [], [], 0⟩

def itemA : NewsItem := ⟨"Title A", "2024-10-20", "a", none⟩

def itemB : NewsItem := ⟨"Title B", "2024-10-25", "b", none⟩

def itemC : NewsItem := ⟨"Title C", "2024-10-30", "c", none⟩

def itemNoDate : NewsItem := ⟨"Title D", "", "d", none⟩

def recA : StoredRecord := ⟨"Title A", "20 October 2024", "a", none, IsoTimestamp.valid 100⟩

/-- A store that already contains `itemA` (keyed by its link "a"). -/
def storeWithA : StorageState := ⟨[("a", recA)], ["a"], [("a", recA)], 0⟩

def recOld : StoredRecord := ⟨"Old", "01 January 2024", "old", none, IsoTimestamp.valid 0⟩

def recFresh : StoredRecord := ⟨"Fresh", "10 October 2024", "fresh", none, IsoTimestamp.valid 95⟩

def recBad : StoredRecord := ⟨"Bad", "x", "bad", none, IsoTimestamp.malformed "not-a-timestamp"⟩

/-- A store with one record 100 days old and one 5 days old (relative to
`now = 100`). -/
def storeOldFresh : StorageState :=
  ⟨[("old", recOld), ("fresh", recFresh)], ["old", "fresh"],
   [("old", recOld), ("fresh", recFresh)], 0⟩

/-- A store with one validly old record and one malformed `processed_at`. -/
def storeBadOld : StorageState :=
  ⟨[("old", recOld), ("bad", recBad)], ["old", "bad"],
   [("old", recOld), ("bad", recBad)], 0⟩

/-! ### Claim C6 — scheduler backoff formula -/

/-- Claim C6: after each cycle-level failure the error count is incremented
and the wait is min(2^count * 30, 3600) seconds — after 3 consecutive
failures the wait before the 4th attempt is 240 seconds, after 8 it is
capped at 3600 — and after any successful cycle the count resets to 0 and
the wait is checkInterval seconds. -/
theorem C6_scheduler_backoff (check_interval c : Nat) (msg : String) :
    run_iteration check_interval c (Except.error msg) =
      (c + 1, min (2 ^ (c + 1) * 30) 3600) ∧
    run_iteration check_interval c (Except.ok ()) = (0, check_interval) ∧
    (failuresState check_interval msg 3).1 = 3 ∧
    (failuresState check_interval msg 3).2 = 240 ∧
    (failuresState check_interval msg 8).2 = 3600 := by
  refine ⟨rfl, rfl, ?_, ?_, ?_⟩ <;>
    simp [failuresState, run_iteration]

/-! ### Claim C8 — the date parser -/

theorem findSome_eq_tryFormats (s : List Char) (l : List DateFormat) :
    l.findSome? (fun f => strptime_fmt f s) = tryFormatsInOrder l s := by
  induction l with
  | nil => rfl
  | cons f fs ih =>
    rw [List.findSome?_cons]
    unfold tryFormatsInOrder
    cases strptime_fmt f s <;> simp [ih]

/-- Claim C8: the date parser is total and follows the fixed algorithm —
empty input yields absent; otherwise lower-case, translate the Dutch month
dictionary, title-case, and try the five format patterns in the fixed
priority order returning the first exact match, else absent, never raising.
Stated as a refinement: `parse_date` (translated from the source) coincides
with `parse_date_spec` (worded from the spec), together with concrete
evaluations including a deterministic ambiguous numeric string. -/
theorem C8_date_parser_follows_algorithm :
    (∀ s, parse_date s = parse_date_spec s) ∧
    parse_date "" = none ∧
    parse_date "25 oktober 2024" = some ⟨2024, 10, 25⟩ ∧
    parse_date "01-02-2024" = some ⟨2024, 2, 1⟩ ∧
    parse_date "31-02-2024" = none ∧
    parse_date "Not a date" = none := by
  refine ⟨?_, by decide, by decide, by decide, by decide, by decide⟩
  intro s
  unfold parse_date parse_date_spec normalize_date_string
  by_cases h : s = "" <;> simp [h, findSome_eq_tryFormats]

/-! ### Claim C1 — fetch failures do not reach the backoff branch -/

/-- Claim C1 counterexample: with a fetcher that raises, the cycle completes
successfully — `get_news` swallows the exception and returns `[]` — so the
consecutive error count stays 0 and the sleep is `check_interval` (600),
not the claimed increment to 1 with backoff sleep min(2^1*30, 3600) = 60. -/
theorem C1_counterexample :
    run_one_cycle 600 (fun _ => DeliveryOutcome.success) 0 emptyStore 0
      (FetchOutcome.exn "connection refused") = (emptyStore, 0, 600) ∧
    ¬ run_one_cycle 600 (fun _ => DeliveryOutcome.success) 0 emptyStore 0
      (FetchOutcome.exn "connection refused") = (emptyStore, 1, 60) := by
  decide

/-- Claim C1 as amended: a Source Fetcher failure (an exception, or a non-200
status) is caught inside `get_news`, which returns an empty list; the cycle
then completes successfully — the consecutive error count resets to 0, the
store is untouched and the scheduler sleeps `check_interval` seconds. The
backoff `min(2^count * 30, 3600)` is applied only to exceptions that escape
the cycle body, which fetch failures never produce. -/
theorem C1_fetch_failure_swallowed (msg : String) (check_interval c status : Nat)
    (send : NewsItem → DeliveryOutcome) (now : Int) (st : StorageState)
    (items : List NewsItem) :
    get_news (FetchOutcome.exn msg) = [] ∧
    (status ≠ 200 → get_news (FetchOutcome.ok status items) = []) ∧
    run_one_cycle check_interval send now st c (FetchOutcome.exn msg) =
      (st, 0, check_interval) ∧
    (status ≠ 200 → run_one_cycle check_interval send now st c (FetchOutcome.ok status items) =
      (st, 0, check_interval)) ∧
    (∀ e, run_iteration check_interval c (Except.error e) =
      (c + 1, min (2 ^ (c + 1) * 30) 3600)) := by
  refine ⟨rfl, fun h => by simp [get_news, h], ?_, fun h => ?_, fun e => rfl⟩
  · simp [run_one_cycle, cycle_result, check_for_updates, process_news_batch,
      get_news, run_iteration]
  · simp [run_one_cycle, cycle_result, check_for_updates, process_news_batch,
      get_news, h, run_iteration]

/-- Witness for C1's amended theorem at a concrete non-200 status. -/
theorem C1_fetch_failure_swallowed_witness :
    get_news (FetchOutcome.ok 404 [itemA]) = [] ∧
    run_one_cycle 600 (fun _ => DeliveryOutcome.success) 0 emptyStore 2
      (FetchOutcome.ok 404 [itemA]) = (emptyStore, 0, 600) :=
  ⟨(C1_fetch_failure_swallowed "" 600 2 404 (fun _ => DeliveryOutcome.success) 0
      emptyStore [itemA]).2.1 (by decide),
   (C1_fetch_failure_swallowed "" 600 2 404 (fun _ => DeliveryOutcome.success) 0
      emptyStore [itemA]).2.2.2.1 (by decide)⟩

/-! ### Claim C4 — prune is not invoked on early-returning batches -/

/-- Claim C4 counterexample: `_process_news_batch` returns before the
`cleanup_old_entries` call both when the fetched batch is empty and when
every fetched item is already processed, so prune is not invoked at the end
of those successful cycles (third component `false`). -/
theorem C4_counterexample :
    (process_news_batch (fun _ => DeliveryOutcome.success) 0 storeWithA []).2.2 = false ∧
    (process_news_batch (fun _ => DeliveryOutcome.success) 0 storeWithA [itemA]).2.2 = false := by
  decide

/-- Claim C4 as amended: at the end of a batch-processing cycle the scheduler
invokes the Dedup Store's prune operation if and only if the fetch result is
nonempty and at least one fetched item is unprocessed; on an empty fetch
result or an all-processed batch it returns early without pruning. -/
theorem C4_prune_iff_nonempty_unprocessed (send : NewsItem → DeliveryOutcome)
    (now : Int) (st : StorageState) (news_items : List NewsItem) :
    (process_news_batch send now st news_items).2.2 = true ↔
      (news_items ≠ [] ∧ get_unprocessed_news st news_items ≠ []) := by
  unfold process_news_batch
  by_cases h1 : news_items = [] <;> by_cases h2 : get_unprocessed_news st news_items = [] <;>
    simp [h1, h2]

/-! ### Claim C5 — delivery retry policy -/

/-- The retry loop, entered at `attempt` with the loop invariant
`remaining = max_retries - attempt`, when the first success among the
remaining attempts is attempt `i`: it returns `true`, makes `i + 1 - attempt`
attempts, and sleeps `min(2^j * 5, 60)` after each failed attempt `j`. -/
theorem send_loop_success (outcome : Nat → Bool) (max_retries : Nat) :
    ∀ remaining attempt i, attempt + remaining = max_retries →
    attempt ≤ i → i < max_retries →
    (∀ j, attempt ≤ j → j < i → outcome j = false) → outcome i = true →
    send_loop outcome max_retries attempt remaining =
      (some true, i + 1 - attempt,
       (List.range' attempt (i - attempt)).map (fun j => min (2 ^ j * 5) 60)) := by
  intro remaining
  induction remaining with
  | zero => intro attempt i h1 h2 h3 _ _; omega
  | succ rem ih =>
    intro attempt i h1 h2 h3 hfail hsucc
    unfold send_loop
    rcases Nat.eq_or_lt_of_le h2 with heq | hlt
    · subst heq
      rw [hsucc]
      simp
    · rw [hfail attempt le_rfl hlt]
      have hne : ¬ attempt = max_retries - 1 := by omega
      simp only [Bool.false_eq_true, if_false, hne]
      rw [ih (attempt + 1) i (by omega) (by omega) h3
        (fun j hj1 hj2 => hfail j (by omega) hj2) hsucc]
      have h4 : i - attempt = (i - (attempt + 1)) + 1 := by omega
      rw [h4, List.range'_succ]
      simp only [List.map_cons]
      refine Prod.ext rfl (Prod.ext ?_ rfl)
      simp only
      omega

/-- The retry loop when every remaining attempt fails: it returns `false`
after exhausting all attempts, with no sleep after the final failure. -/
theorem send_loop_failure (outcome : Nat → Bool) (max_retries : Nat) :
    ∀ remaining attempt, attempt + remaining = max_retries → attempt < max_retries →
    (∀ j, attempt ≤ j → j < max_retries → outcome j = false) →
    send_loop outcome max_retries attempt remaining =
      (some false, max_retries - attempt,
       (List.range' attempt (max_retries - 1 - attempt)).map (fun j => min (2 ^ j * 5) 60)) := by
  intro remaining
  induction remaining with
  | zero => intro attempt h1 h2 _; omega
  | succ rem ih =>
    intro attempt h1 h2 hfail
    unfold send_loop
    rw [hfail attempt le_rfl h2]
    by_cases hlast : attempt = max_retries - 1
    · simp only [Bool.false_eq_true, if_false, hlast, if_true]
      have h3 : max_retries - (max_retries - 1) = 1 := by omega
      have h4 : max_retries - 1 - (max_retries - 1) = 0 := by omega
      rw [h3, h4]
      rfl
    · simp only [Bool.false_eq_true, if_false, hlast]
      rw [ih (attempt + 1) (by omega) (by omega)
        (fun j hj1 hj2 => hfail j (by omega) hj2)]
      have h4 : max_retries - 1 - attempt = (max_retries - 1 - (attempt + 1)) + 1 := by omega
      rw [h4, List.range'_succ]
      simp only [List.map_cons]
      refine Prod.ext rfl (Prod.ext ?_ rfl)
      simp only
      omega

/-- Claim C5: `send_notification` returns `true` as soon as one delivery
attempt succeeds and `false` only after all `max_retries` attempts are
exhausted, never raising past this boundary (it is a total function of the
attempt outcomes); every attempt after the first is preceded by a wait of
`min(2^attempt * 5, 60)` seconds counting failed attempts from 0; with
`max_retries = 3` and an underlying send that fails twice then succeeds,
exactly 3 attempts are made with waits of 5s then 10s and the result is
`true`. -/
theorem C5_delivery_retry (outcome : Nat → Bool) (max_retries i : Nat) :
    (i < max_retries → (∀ j, j < i → outcome j = false) → outcome i = true →
      send_notification outcome max_retries =
        (some true, i + 1, (List.range i).map (fun j => min (2 ^ j * 5) 60))) ∧
    (1 ≤ max_retries → (∀ j, j < max_retries → outcome j = false) →
      send_notification outcome max_retries =
        (some false, max_retries,
         (List.range (max_retries - 1)).map (fun j => min (2 ^ j * 5) 60))) ∧
    send_notification (fun j => decide (2 ≤ j)) 3 = (some true, 3, [5, 10]) := by
  refine ⟨fun h1 h2 h3 => ?_, fun h1 h2 => ?_, by decide⟩
  · unfold send_notification
    rw [send_loop_success outcome max_retries max_retries 0 i (by omega) (by omega) h1
      (fun j _ hj => h2 j hj) h3]
    rw [List.range_eq_range']
    simp
  · unfold send_notification
    rw [send_loop_failure outcome max_retries max_retries 0 (by omega) (by omega)
      (fun j _ hj => h2 j hj)]
    rw [List.range_eq_range']
    simp

/-- Witness for C5 at the concrete retry scenario of the claim. -/
theorem C5_delivery_retry_witness :
    send_notification (fun j => decide (2 ≤ j)) 3 =
      (some true, 2 + 1, (List.range 2).map (fun j => min (2 ^ j * 5) 60)) :=
  (C5_delivery_retry (fun j => decide (2 ≤ j)) 3 2).1 (by decide)
    (fun j hj => by interval_cases j <;> decide) (by decide)

/-! ### Claim C2 — at-most-once delivery per link -/

/-- Filtering a batch down to the links different from an already-processed
link does not change the unprocessed sublist. -/
theorem get_unprocessed_filter_link (st : StorageState) (item : NewsItem)
    (h : item.link ∈ st.processed_links) (l : List NewsItem) :
    get_unprocessed_news st (l.filter (fun n => !(decide (n.link = item.link)))) =
      get_unprocessed_news st l := by
  unfold get_unprocessed_news
  rw [List.filter_filter]
  apply List.filter_congr
  intro n _
  by_cases hp : is_processed st n
  · simp [hp]
  · have hne : ¬ n.link = item.link := by
      intro he
      apply hp
      unfold is_processed
      rw [he]
      exact decide_eq_true h
    simp [hp, hne]

/-- Claim C2: an item whose link is already in the Dedup Store at the start
of the batch gets zero delivery attempts and contributes nothing to the
result: processing the batch equals processing the batch with every
occurrence of that link removed. -/
theorem C2_at_most_once (send : NewsItem → DeliveryOutcome) (now : Int)
    (st : StorageState) (news_items : List NewsItem) (item : NewsItem)
    (h : item.link ∈ st.processed_links) :
    item ∉ (process_news_batch send now st news_items).2.1 ∧
    process_news_batch send now st news_items =
      process_news_batch send now st
        (news_items.filter (fun n => !(decide (n.link = item.link)))) := by
  have key := get_unprocessed_filter_link st item h news_items
  constructor
  · intro hmem
    unfold process_news_batch at hmem
    by_cases h1 : news_items = []
    · simp [h1] at hmem
    · by_cases h2 : get_unprocessed_news st news_items = []
      · simp [h1, h2] at hmem
      · simp [h1, h2] at hmem
        unfold get_unprocessed_news at hmem
        rw [List.mem_filter] at hmem
        have h3 := hmem.2
        simp [is_processed, h] at h3
  · unfold process_news_batch
    by_cases h1 : news_items = []
    · subst h1
      simp
    · by_cases h3 : news_items.filter (fun n => !(decide (n.link = item.link))) = []
      · have h2 : get_unprocessed_news st news_items = [] := by
          rw [← key, h3]
          rfl
        simp [h1, h2, h3]
      · rw [← key]
        simp [h1, h3]

/-- Witness for C2: the end-to-end scenario of the claim — fetch returns one
item whose link "a" the store already contains; no delivery attempt is made
and the store is unchanged. -/
theorem C2_at_most_once_witness :
    itemA.link ∈ storeWithA.processed_links ∧
    itemA ∉ (process_news_batch (fun _ => DeliveryOutcome.success) 0 storeWithA [itemA]).2.1 ∧
    process_news_batch (fun _ => DeliveryOutcome.success) 0 storeWithA [itemA] =
      (storeWithA, [], false) :=
  ⟨by decide,
   (C2_at_most_once (fun _ => DeliveryOutcome.success) 0 storeWithA [itemA] itemA
     (by decide)).1,
   by decide⟩

/-! ### Claim C3 — markProcessed is idempotent and persists synchronously -/

/-- Claim C3: `mark_as_processed` on an already-present link is a complete
no-op (no record change, no write, original `processed_at` kept); on an
unprocessed item it appends exactly one record with `processed_at = now` to
the mapping, adds the link to the index, persists before returning
(the disk equals the new mapping and exactly one write happens), and a
second call on the same link leaves the state — and hence the first
`processed_at` — unchanged. -/
theorem C3_mark_processed_idempotent (st : StorageState) (n : NewsItem) (now now2 : Int)
    (hwf : WF st) :
    (n.link ∈ st.processed_links → mark_as_processed now st n = st) ∧
    (n.link ∉ st.processed_links →
      (mark_as_processed now st n).processed_news =
        st.processed_news ++
          [(n.link, ⟨n.title, formatted_date n, n.link, n.image_url, IsoTimestamp.valid now⟩)] ∧
      (mark_as_processed now st n).processed_links = st.processed_links ++ [n.link] ∧
      (mark_as_processed now st n).disk = (mark_as_processed now st n).processed_news ∧
      (mark_as_processed now st n).writeCount = st.writeCount + 1 ∧
      ((mark_as_processed now st n).processed_news.map Prod.fst).count n.link = 1 ∧
      mark_as_processed now2 (mark_as_processed now st n) n = mark_as_processed now st n ∧
      WF (mark_as_processed now st n)) := by
  constructor
  · intro h
    unfold mark_as_processed
    simp [is_processed, h]
  · intro h
    have hnp : is_processed st n = false := by simp [is_processed, h]
    have hkey : n.link ∉ st.processed_news.map Prod.fst := by
      rw [← hwf.1]
      exact h
    have hmark : mark_as_processed now st n =
        { st with
          processed_news := st.processed_news ++
            [(n.link, ⟨n.title, formatted_date n, n.link, n.image_url, IsoTimestamp.valid now⟩)],
          processed_links := st.processed_links ++ [n.link],
          disk := st.processed_news ++
            [(n.link, ⟨n.title, formatted_date n, n.link, n.image_url, IsoTimestamp.valid now⟩)],
          writeCount := st.writeCount + 1 } := by
      unfold mark_as_processed save_processed_news insertLink
      simp [hnp, h]
    refine ⟨by rw [hmark], by rw [hmark], by rw [hmark], by rw [hmark], ?_, ?_, ?_⟩
    · rw [hmark]
      simp [List.count_append, List.count_eq_zero.mpr hkey]
    · rw [hmark]
      unfold mark_as_processed
      simp [is_processed]
    · rw [hmark]
      unfold WF
      simp only [List.map_append, List.map_cons, List.map_nil]
      constructor
      · rw [hwf.1]
      · simp [List.nodup_append, hwf.2, hkey]

/-- Witness for C3 at a concrete unprocessed item: one write happens, the
disk holds the new mapping, and a second call at a later time changes
nothing. -/
theorem C3_mark_processed_idempotent_witness :
    (mark_as_processed 100 emptyStore itemA).writeCount = emptyStore.writeCount + 1 ∧
    (mark_as_processed 100 emptyStore itemA).disk =
      (mark_as_processed 100 emptyStore itemA).processed_news ∧
    mark_as_processed 200 (mark_as_processed 100 emptyStore itemA) itemA =
      mark_as_processed 100 emptyStore itemA :=
  ⟨((C3_mark_processed_idempotent emptyStore itemA 100 200 ⟨rfl, List.nodup_nil⟩).2
      (by decide)).2.2.2.1,
   ((C3_mark_processed_idempotent emptyStore itemA 100 200 ⟨rfl, List.nodup_nil⟩).2
      (by decide)).2.2.1,
   ((C3_mark_processed_idempotent emptyStore itemA 100 200 ⟨rfl, List.nodup_nil⟩).2
      (by decide)).2.2.2.2.2.1⟩

/-! ### Claims C7 and C10 — pruning old entries -/

/-- The first loop of `cleanup_old_entries` raises (returns `none`) as soon
as any record's `processed_at` fails to parse. -/
theorem collectOld_none (now m : Int) (records : List (String × StoredRecord))
    (h : ∃ p ∈ records, fromisoformat p.2.processed_at = none) :
    collectOld now m records = none := by
  induction records with
  | nil => simp at h
  | cons p rest ih =>
    unfold collectOld
    rcases h with ⟨q, hq, hbad⟩
    rcases List.mem_cons.mp hq with rfl | hmem
    · rw [hbad]
    · cases hfp : fromisoformat p.2.processed_at with
      | none => rfl
      | some t => rw [ih ⟨q, hmem, hbad⟩]

/-- When every record's `processed_at` parses, the first loop collects, in
dict order, exactly the keys of the records older than the threshold. -/
theorem collectOld_valid (now m : Int) (records : List (String × StoredRecord))
    (h : ∀ p ∈ records, (fromisoformat p.2.processed_at).isSome = true) :
    collectOld now m records =
      some ((records.filter (fun p => decide (now - tsVal p.2.processed_at > m))).map Prod.fst) := by
  induction records with
  | nil => rfl
  | cons p rest ih =>
    unfold collectOld
    have hp := h p (List.mem_cons_self p rest)
    cases hts : p.2.processed_at with
    | malformed raw => rw [hts] at hp; simp [fromisoformat] at hp
    | valid t =>
      simp only [fromisoformat]
      rw [ih (fun q hq => h q (List.mem_cons_of_mem p hq))]
      by_cases hold : now - t > m
      · simp [List.filter_cons, tsVal, hts, hold]
      · simp [List.filter_cons, tsVal, hts, hold]

/-- The removal loop of `cleanup_old_entries`, when every collected link is
a dict key and an index member and the collected links are distinct (always
true below the datastructure invariant), completes without `KeyError` and
filters the removed links out of both structures. -/
theorem popLoop_spec : ∀ (toRemove : List String) (news : List (String × StoredRecord))
    (links : List String), toRemove.Nodup →
    (∀ l ∈ toRemove, l ∈ news.map Prod.fst) →
    (∀ l ∈ toRemove, l ∈ links) →
    popLoop toRemove news links =
      (news.filter (fun p => !(decide (p.1 ∈ toRemove))),
       links.filter (fun x => !(decide (x ∈ toRemove))), true) := by
  intro toRemove
  induction toRemove with
  | nil => intro news links _ _ _; simp [popLoop]
  | cons l rest ih =>
    intro news links hnd hkeys hlinks
    have hlrest : l ∉ rest := (List.nodup_cons.mp hnd).1
    unfold popLoop
    have hl1 : news.any (fun p => decide (p.1 = l)) = true := by
      rw [List.any_eq_true]
      rcases List.mem_map.mp (hkeys l (List.mem_cons_self l rest)) with ⟨p, hp, hpl⟩
      exact ⟨p, hp, by simp [hpl]⟩
    rw [hl1, if_pos (hlinks l (List.mem_cons_self l rest))]
    rw [ih (news.filter (fun p => !(decide (p.1 = l))))
        (links.filter (fun x => !(decide (x = l))))
        (List.nodup_cons.mp hnd).2 ?keys ?links]
    case keys =>
      intro x hx
      rcases List.mem_map.mp (hkeys x (List.mem_cons_of_mem l hx)) with ⟨p, hp, hpx⟩
      refine List.mem_map.mpr ⟨p, List.mem_filter.mpr ⟨hp, ?_⟩, hpx⟩
      have : ¬ p.1 = l := by rw [hpx]; intro he; exact hlrest (he ▸ hx)
      simp [this]
    case links =>
      intro x hx
      refine List.mem_filter.mpr ⟨hlinks x (List.mem_cons_of_mem l hx), ?_⟩
      have : ¬ x = l := by intro he; exact hlrest (he ▸ hx)
      simp [this]
    rw [List.filter_filter, List.filter_filter]
    refine Prod.ext ?_ (Prod.ext ?_ rfl)
    · apply List.filter_congr
      intro p _
      by_cases h1 : p.1 = l <;> by_cases h2 : p.1 ∈ rest <;>
        simp [h1, h2, List.mem_cons]
    · apply List.filter_congr
      intro x _
      by_cases h1 : x = l <;> by_cases h2 : x ∈ rest <;>
        simp [h1, h2, List.mem_cons]

/-- Any two records of a store satisfying the invariant that share a key are
the same record. -/
theorem wf_key_inj {st : StorageState} (hwf : WF st) {p q : String × StoredRecord}
    (hp : p ∈ st.processed_news) (hq : q ∈ st.processed_news) (hpq : p.1 = q.1) : p = q :=
  List.inj_on_of_nodup_map hwf.2 hp hq hpq

/-- Filtering an association list by a key predicate commutes with taking
the keys. -/
theorem map_fst_filter (q : String → Bool) (l : List (String × StoredRecord)) :
    (l.filter (fun p => q p.1)).map Prod.fst = (l.map Prod.fst).filter q := by
  induction l with
  | nil => rfl
  | cons p rest ih => by_cases h : q p.1 = true <;> simp [List.filter_cons, h, ih]

/-- Function `cleanup_old_entries` does nothing at all — no removal and no write —
when every record parses and none is old enough. -/
theorem cleanup_noop (st : StorageState) (now m : Int)
    (hvalid : ∀ p ∈ st.processed_news, (fromisoformat p.2.processed_at).isSome = true)
    (hany : st.processed_news.any (fun p => decide (now - tsVal p.2.processed_at > m)) = false) :
    cleanup_old_entries st now m = st := by
  unfold cleanup_old_entries
  rw [collectOld_valid now m st.processed_news hvalid]
  have hfil : st.processed_news.filter (fun p => decide (now - tsVal p.2.processed_at > m)) = [] := by
    rw [List.filter_eq_nil_iff]
    intro p hp
    have := List.any_eq_false.mp hany p hp
    simpa using this
  rw [hfil]
  simp [popLoop]

/-- Claim C7: `cleanup_old_entries` removes exactly the records whose
`processed_at` is more than `max_age_days` days before `now`, leaves every
other record untouched in both the mapping and the link index (the
invariant is preserved), persists exactly when at least one record was
removed, and a second run with the same arguments changes nothing — in
particular it performs no write. -/
theorem C7_prune_exact (st : StorageState) (now max_age_days : Int) (hwf : WF st)
    (hvalid : ∀ p ∈ st.processed_news, (fromisoformat p.2.processed_at).isSome = true) :
    (cleanup_old_entries st now max_age_days).processed_news =
      st.processed_news.filter (fun p => !(decide (now - tsVal p.2.processed_at > max_age_days))) ∧
    WF (cleanup_old_entries st now max_age_days) ∧
    (st.processed_news.any (fun p => decide (now - tsVal p.2.processed_at > max_age_days)) = true →
      (cleanup_old_entries st now max_age_days).disk =
        (cleanup_old_entries st now max_age_days).processed_news ∧
      (cleanup_old_entries st now max_age_days).writeCount = st.writeCount + 1) ∧
    (st.processed_news.any (fun p => decide (now - tsVal p.2.processed_at > max_age_days)) = false →
      cleanup_old_entries st now max_age_days = st) ∧
    cleanup_old_entries (cleanup_old_entries st now max_age_days) now max_age_days =
      cleanup_old_entries st now max_age_days := by
  cases hany : st.processed_news.any (fun p => decide (now - tsVal p.2.processed_at > max_age_days)) with
  | false =>
    have hnoop := cleanup_noop st now max_age_days hvalid hany
    rw [hnoop]
    refine ⟨?_, hwf, ?_, fun _ => rfl, hnoop⟩
    · symm
      rw [List.filter_eq_self]
      intro p hp
      have := List.any_eq_false.mp hany p hp
      simpa using this
    · intro hcon
      exact Bool.noConfusion hcon
  | true =>
    have hco := collectOld_valid now max_age_days st.processed_news hvalid
    have hsub : List.Sublist ((st.processed_news.filter
        (fun p => decide (now - tsVal p.2.processed_at > max_age_days))).map Prod.fst)
        (st.processed_news.map Prod.fst) :=
      (List.filter_sublist st.processed_news).map Prod.fst
    have hnd : ((st.processed_news.filter
        (fun p => decide (now - tsVal p.2.processed_at > max_age_days))).map Prod.fst).Nodup :=
      List.Sublist.nodup hsub hwf.2
    have hkeys : ∀ l ∈ (st.processed_news.filter
        (fun p => decide (now - tsVal p.2.processed_at > max_age_days))).map Prod.fst,
        l ∈ st.processed_news.map Prod.fst := by
      intro l hl
      rcases List.mem_map.mp hl with ⟨p, hp, he⟩
      exact he ▸ List.mem_map_of_mem Prod.fst (List.mem_of_mem_filter hp)
    have hlinks : ∀ l ∈ (st.processed_news.filter
        (fun p => decide (now - tsVal p.2.processed_at > max_age_days))).map Prod.fst,
        l ∈ st.processed_links := by
      rw [hwf.1]
      exact hkeys
    have hmem_iff : ∀ p ∈ st.processed_news,
        (p.1 ∈ (st.processed_news.filter
          (fun p => decide (now - tsVal p.2.processed_at > max_age_days))).map Prod.fst ↔
         decide (now - tsVal p.2.processed_at > max_age_days) = true) := by
      intro p hp
      constructor
      · intro h1
        rcases List.mem_map.mp h1 with ⟨q, hq, hql⟩
        rcases List.mem_filter.mp hq with ⟨hqnews, hqold⟩
        rw [wf_key_inj hwf hp hqnews hql.symm]
        exact hqold
      · intro h1
        exact List.mem_map_of_mem Prod.fst (List.mem_filter.mpr ⟨hp, h1⟩)
    have hne : (st.processed_news.filter
        (fun p => decide (now - tsVal p.2.processed_at > max_age_days))).map Prod.fst ≠ [] := by
      rcases List.any_eq_true.mp hany with ⟨p, hp, hold⟩
      exact List.ne_nil_of_mem
        (List.mem_map_of_mem Prod.fst (List.mem_filter.mpr ⟨hp, hold⟩))
    have hnews_eq : st.processed_news.filter (fun p => !(decide (p.1 ∈
        (st.processed_news.filter
          (fun p => decide (now - tsVal p.2.processed_at > max_age_days))).map Prod.fst))) =
        st.processed_news.filter (fun p => !(decide (now - tsVal p.2.processed_at > max_age_days))) := by
      apply List.filter_congr
      intro p hp
      by_cases h1 : decide (now - tsVal p.2.processed_at > max_age_days) = true
      · simp [h1, (hmem_iff p hp).mpr h1]
      · have h2 : p.1 ∉ (st.processed_news.filter
            (fun p => decide (now - tsVal p.2.processed_at > max_age_days))).map Prod.fst :=
          fun hc => h1 ((hmem_iff p hp).mp hc)
        have h1x : decide (now - tsVal p.2.processed_at > max_age_days) = false := by
          rwa [Bool.not_eq_true] at h1
        simp [h2, h1x]
    have hlinks_eq : st.processed_links.filter (fun x => !(decide (x ∈
        (st.processed_news.filter
          (fun p => decide (now - tsVal p.2.processed_at > max_age_days))).map Prod.fst))) =
        (st.processed_news.filter
          (fun p => !(decide (now - tsVal p.2.processed_at > max_age_days)))).map Prod.fst := by
      rw [hwf.1, ← map_fst_filter, hnews_eq]
    have hfinal : cleanup_old_entries st now max_age_days =
        ⟨st.processed_news.filter (fun p => !(decide (now - tsVal p.2.processed_at > max_age_days))),
         (st.processed_news.filter
           (fun p => !(decide (now - tsVal p.2.processed_at > max_age_days)))).map Prod.fst,
         st.processed_news.filter (fun p => !(decide (now - tsVal p.2.processed_at > max_age_days))),
         st.writeCount + 1⟩ := by
      unfold cleanup_old_entries
      simp only [hco, popLoop_spec _ _ _ hnd hkeys hlinks, hne, ne_eq, not_false_iff,
        if_true, ite_true]
      unfold save_processed_news
      rw [hnews_eq, hlinks_eq]
    rw [hfinal]
    have hnd2 : ((st.processed_news.filter
        (fun p => !(decide (now - tsVal p.2.processed_at > max_age_days)))).map Prod.fst).Nodup :=
      List.Sublist.nodup ((List.filter_sublist st.processed_news).map Prod.fst) hwf.2
    refine ⟨rfl, ⟨rfl, hnd2⟩, fun _ => ⟨rfl, rfl⟩, ?_, ?_⟩
    · intro hcon
      exact Bool.noConfusion hcon
    · rw [← hfinal]
      apply cleanup_noop
      · intro p hp
        rw [hfinal] at hp
        exact hvalid p (List.mem_of_mem_filter hp)
      · rw [hfinal]
        rw [List.any_eq_false]
        intro p hp
        have h3 := (List.mem_filter.mp hp).2
        simp at h3
        simpa using h3

/-- Witness for C7 at a concrete store holding a 100-day-old record and a
5-day-old record, pruned at `now = 100` with the default 30-day threshold:
exactly the old record goes, one write happens, and a second prune changes
nothing. -/
theorem C7_prune_exact_witness :
    (cleanup_old_entries storeOldFresh 100 30).processed_news =
      storeOldFresh.processed_news.filter
        (fun p => !(decide ((100 : Int) - tsVal p.2.processed_at > 30))) ∧
    (cleanup_old_entries storeOldFresh 100 30).writeCount = storeOldFresh.writeCount + 1 ∧
    cleanup_old_entries (cleanup_old_entries storeOldFresh 100 30) 100 30 =
      cleanup_old_entries storeOldFresh 100 30 :=
  ⟨(C7_prune_exact storeOldFresh 100 30 ⟨rfl, by decide⟩ (by decide)).1,
   ((C7_prune_exact storeOldFresh 100 30 ⟨rfl, by decide⟩ (by decide)).2.2.1 (by decide)).2,
   (C7_prune_exact storeOldFresh 100 30 ⟨rfl, by decide⟩ (by decide)).2.2.2.2⟩

/-- Claim C10: prune is atomic on error — if `fromisoformat` fails on any
stored record, `cleanup_old_entries` catches the error before any mutation,
removes nothing (including validly old records), writes nothing, and leaves
mapping, index and disk exactly as they were. -/
theorem C10_prune_atomic_on_parse_error (st : StorageState) (now max_age_days : Int)
    (h : ∃ p ∈ st.processed_news, fromisoformat p.2.processed_at = none) :
    cleanup_old_entries st now max_age_days = st := by
  unfold cleanup_old_entries
  rw [collectOld_none now max_age_days st.processed_news h]

/-- Witness for C10: a store holding a malformed record next to a record
that is 100 days old at `now = 100` — old enough to be pruned — is left
entirely unchanged. -/
theorem C10_prune_atomic_on_parse_error_witness :
    (∃ p ∈ storeBadOld.processed_news, fromisoformat p.2.processed_at = none) ∧
    cleanup_old_entries storeBadOld 100 30 = storeBadOld ∧
    (100 : Int) - tsVal recOld.processed_at > 30 :=
  ⟨by decide, C10_prune_atomic_on_parse_error storeBadOld 100 30 (by decide), by decide⟩

/-! ### Claim C9 — item equality and ordering -/

theorem dateLt_trans {a b c : Date} (h1 : dateLt a b = true) (h2 : dateLt b c = true) :
    dateLt a c = true := by
  simp only [dateLt, decide_eq_true_eq] at h1 h2 ⊢
  omega

theorem dateLt_asymm_eq {a b : Date} (h1 : dateLt a b = false) (h2 : dateLt b a = false) :
    a = b := by
  cases a with
  | mk y1 m1 d1 =>
    cases b with
    | mk y2 m2 d2 =>
      simp only [dateLt, decide_eq_false_iff_not] at h1 h2
      simp only [Date.mk.injEq]
      omega

/-- Claim C9 counterexample: the claim's rule "A < B iff both have a parsed
date and A's is strictly earlier" fails on the code — an item with a parsed
date is `__lt__` an item whose date failed to parse. -/
theorem C9_counterexample :
    newsItemLt itemA itemNoDate = true ∧ parsedDate itemNoDate = none := by
  decide

/-- Claim C9 as amended: equality is on links alone; `A < B` holds iff A has
a parsed date and (B has none or A's date is strictly earlier) — so an item
with no parsed date never sorts before any item, an item with a date sorts
before every item without one, two dateless items are order-equivalent —
and the comparator is transitive and total up to that equivalence
(incomparable items compare identically against every third item). -/
theorem C9_item_ordering (a b c : NewsItem) :
    (newsItemEq a b = true ↔ a.link = b.link) ∧
    (newsItemLt a b = true ↔
      ((parsedDate a).isSome = true ∧
        (parsedDate b = none ∨
          ∃ da db, parsedDate a = some da ∧ parsedDate b = some db ∧ dateLt da db = true))) ∧
    (parsedDate a = none → newsItemLt a b = false) ∧
    (parsedDate a ≠ none → parsedDate b = none → newsItemLt a b = true) ∧
    (parsedDate a = none → parsedDate b = none →
      newsItemLt a b = false ∧ newsItemLt b a = false) ∧
    (newsItemLt a b = true → newsItemLt b c = true → newsItemLt a c = true) ∧
    (newsItemLt a b = false → newsItemLt b a = false →
      newsItemLt a c = newsItemLt b c ∧ newsItemLt c a = newsItemLt c b) := by
  unfold newsItemLt
  refine ⟨by simp [newsItemEq], ?_, ?_, ?_, ?_, ?_, ?_⟩
  · cases hpa : parsedDate a <;> cases hpb : parsedDate b <;> simp
  · intro h
    rw [h]
  · intro h1 h2
    rw [h2]
    cases hpa : parsedDate a with
    | none => exact absurd hpa h1
    | some da => rfl
  · intro h1 h2
    rw [h1, h2]
    exact ⟨rfl, rfl⟩
  · cases hpa : parsedDate a <;> cases hpb : parsedDate b <;> cases hpc : parsedDate c <;>
      simp
    exact fun h1 h2 => dateLt_trans h1 h2
  · cases hpa : parsedDate a <;> cases hpb : parsedDate b <;> cases hpc : parsedDate c <;>
      simp
    all_goals intro h1 h2
    all_goals rw [dateLt_asymm_eq h1 h2]
    all_goals exact ⟨rfl, rfl⟩

/-- Witness for C9: transitivity applied at three concrete items in
ascending date order. -/
theorem C9_item_ordering_witness :
    newsItemLt itemA itemC = true ∧ newsItemEq itemA itemB = false :=
  ⟨(C9_item_ordering itemA itemB itemC).2.2.2.2.2.1 (by decide) (by decide), by decide⟩

end Werchter
